import Mathlib

/-!
Verification development for the traccc seed-finding excerpt.

The excerpt contains the seed data model (alt_seed.hpp), the declarations of
the SYCL seeding algorithm and of the CUDA weight updating stage, and the
multi-threaded throughput harness.  The bodies of the seeding stages are not
part of the excerpt, so they are modelled from the specification; every such
definition carries a doc comment starting with "Modelled from the spec:".
Floating-point scalars are modelled by exact rationals.
-/

namespace traccc

/-- Scalar type of the library.  The C++ code uses a floating-point `scalar`;
the model uses exact rationals so that the algebra of the claims is exact. -/
abbrev scalar := ℚ

/-- Modelled from the spec: the measurement payload carried by a spacepoint.
The measurement type itself is external to the seeding core (its header is
not part of the excerpt); only the fact that a spacepoint carries one is
needed, so it is modelled as an opaque pair of local coordinates. -/
structure measurement where
  local0 : scalar
  local1 : scalar
deriving DecidableEq

/-- Modelled from the spec: a spacepoint is a 3D global position derived from
a detection measurement (spacepoint.hpp is not part of the excerpt; the spec
describes it as a 3D position plus a reference to the originating
measurement). -/
structure spacepoint where
  x : scalar
  y : scalar
  z : scalar
  meas : measurement
deriving DecidableEq

/-- Seed consisting of three spacepoint links, z origin and weight,
translated from src/core/include/traccc/edm/alt_seed.hpp.  Links are indices
into the externally owned spacepoint collection. -/
structure alt_seed where
  spB_link : Nat
  spM_link : Nat
  spT_link : Nat
  weight : scalar
  z_vertex : scalar
deriving DecidableEq

/-- Bounds-checked element access on the spacepoint collection view: the
model of the vecmem device vector access used by alt_seed (out-of-range
access, a fault in C++, is modelled as none). -/
def spAt (v : List spacepoint) (i : Nat) : Option spacepoint := v.get? i

/-- Translation of alt_seed::get_spacepoints: reads the three linked
spacepoints in bottom/middle/top order.  The function is pure: it modifies
neither the seed nor the collection. -/
def alt_seed.get_spacepoints (s : alt_seed) (v : List spacepoint) :
    Option (spacepoint × spacepoint × spacepoint) :=
  match spAt v s.spB_link, spAt v s.spM_link, spAt v s.spT_link with
  | some b, some m, some t => some (b, m, t)
  | _, _, _ => none

/-- Translation of alt_seed::get_measurements: reads the meas field of the
three linked spacepoints in bottom/middle/top order.  The function is pure:
it modifies neither the seed nor the collection. -/
def alt_seed.get_measurements (s : alt_seed) (v : List spacepoint) :
    Option (measurement × measurement × measurement) :=
  match spAt v s.spB_link, spAt v s.spM_link, spAt v s.spT_link with
  | some b, some m, some t => some (b.meas, m.meas, t.meas)
  | _, _, _ => none

/-- Modelled from the spec: the grid/finder configuration (seedfinder_config
of seeding_config.hpp, not part of the excerpt).  Radial and polar bounds
are expressed on squared transverse radii so that the model stays in exact
rational arithmetic. -/
structure seedfinder_config where
  nPhiBins : Nat
  nZBins : Nat
  zMin : scalar
  zBinSize : scalar
  deltaR2Min : scalar
  deltaR2Max : scalar
  cotThetaMax2 : scalar
  collisionRegionMin : scalar
  collisionRegionMax : scalar
  maxCurvature2 : scalar
  impactMax : scalar
deriving DecidableEq

/-- Modelled from the spec: the filter configuration (seedfilter_config of
seeding_config.hpp, declared by weight_updating.hpp but not defined in the
excerpt): weight cut, maximum seeds retained per middle spacepoint,
density-bonus cap and tolerance window. -/
structure seedfilter_config where
  weightCut : scalar
  maxSeedsPerSpM : Int
  compatTolCurv : scalar
  compatTolImpact : scalar
  densityCap : Nat
  compatWeight : scalar
  roiBonus : scalar
deriving DecidableEq

/-- Squared transverse radius of a spacepoint. -/
def r2 (p : spacepoint) : scalar := p.x ^ 2 + p.y ^ 2

/-- Modelled from the spec: a monotone rational surrogate for the azimuthal
angle (the real code uses atan2, which has no exact rational counterpart);
a pure function of the transverse coordinates with range [-1, 3]. -/
def pseudoPhi (x y : scalar) : scalar :=
  if |x| + |y| = 0 then 0
  else if 0 ≤ x then y / (|x| + |y|) else 2 - y / (|x| + |y|)

/-- Modelled from the spec: the azimuthal bin of a spacepoint, a pure
function of its transverse coordinates and the configured bin count. -/
def phiBin (fc : seedfinder_config) (p : spacepoint) : Nat :=
  (Int.toNat ⌊(pseudoPhi p.x p.y + 1) / 4 * (fc.nPhiBins : scalar)⌋) % fc.nPhiBins

/-- Modelled from the spec: the longitudinal bin of a spacepoint, a pure
function of its z coordinate and the configured bin edges (clamped to the
last bin). -/
def zBin (fc : seedfinder_config) (p : spacepoint) : Nat :=
  min (Int.toNat ⌊(p.z - fc.zMin) / fc.zBinSize⌋) (fc.nZBins - 1)

/-- Modelled from the spec: the flattened (azimuth, longitudinal) bin index
of a spacepoint in the 2D lattice. -/
def binIndex (fc : seedfinder_config) (p : spacepoint) : Nat :=
  phiBin fc p * fc.nZBins + zBin fc p

/-- Modelled from the spec: the ordered sequence of spacepoint indices held
by one grid bin (partitioning all spacepoints purely by coordinate). -/
def binContent (fc : seedfinder_config) (sps : List spacepoint) (j : Nat) :
    List Nat :=
  (List.range sps.length).filter fun i =>
    match sps.get? i with
    | some p => binIndex fc p == j
    | none => false

/-- Modelled from the spec: neighbor-bin enumeration, a 3 x 3 patch around a
bin, wrapping across the azimuthal boundary and clamped longitudinally. -/
def neighborBins (fc : seedfinder_config) (j : Nat) : List Nat :=
  let p := j / fc.nZBins
  let z := j % fc.nZBins
  let phis := [(p + fc.nPhiBins - 1) % fc.nPhiBins, p, (p + 1) % fc.nPhiBins].dedup
  let zs := (if z = 0 then [] else [z - 1]) ++ [z] ++
    (if z + 1 < fc.nZBins then [z + 1] else [])
  phis.flatMap fun a => zs.map fun b => a * fc.nZBins + b

/-- Modelled from the spec: the pairwise doublet compatibility predicate for
a candidate pC against the middle spacepoint pM.  Radial separation within
configured bounds with the sign fixed by the role (bottom strictly below the
middle radius, top strictly above), polar-angle (cotangent) compatibility,
and the interval test that the extrapolated origin lies in the beam
collision region. -/
def doubletCompat (fc : seedfinder_config) (pM pC : spacepoint)
    (bottom : Bool) : Bool :=
  let dR := if bottom then r2 pM - r2 pC else r2 pC - r2 pM
  let dz := if bottom then pM.z - pC.z else pC.z - pM.z
  let zOrigin := pM.z - r2 pM * dz / dR
  decide (0 < dR) && decide (fc.deltaR2Min ≤ dR) && decide (dR ≤ fc.deltaR2Max) &&
  decide (dz ^ 2 ≤ fc.cotThetaMax2 * dR) &&
  decide (fc.collisionRegionMin ≤ zOrigin) && decide (zOrigin ≤ fc.collisionRegionMax)

/-- Modelled from the spec: candidate indices for a middle spacepoint,
gathered from the grid bins neighboring its bin. -/
def candidateIndices (fc : seedfinder_config) (sps : List spacepoint)
    (pM : spacepoint) : List Nat :=
  (neighborBins fc (binIndex fc pM)).flatMap (binContent fc sps)

/-- Modelled from the spec: the compatible bottom-doublet candidate indices
of a middle spacepoint. -/
def bottomIndices (fc : seedfinder_config) (sps : List spacepoint)
    (pM : spacepoint) : List Nat :=
  (candidateIndices fc sps pM).filter fun c =>
    match sps.get? c with
    | some pC => doubletCompat fc pM pC true
    | none => false

/-- Modelled from the spec: the compatible top-doublet candidate indices of
a middle spacepoint. -/
def topIndices (fc : seedfinder_config) (sps : List spacepoint)
    (pM : spacepoint) : List Nat :=
  (candidateIndices fc sps pM).filter fun c =>
    match sps.get? c with
    | some pC => doubletCompat fc pM pC false
    | none => false

/-- Cross product of the bottom and top candidate indices of one middle
spacepoint. -/
def tripletPairs (bs ts : List Nat) : List (Nat × Nat) :=
  bs.flatMap fun b => ts.map fun t => (b, t)

/-- Transverse x separation of two spacepoints. -/
def deltaX (p q : spacepoint) : scalar := p.x - q.x

/-- Transverse y separation of two spacepoints. -/
def deltaY (p q : spacepoint) : scalar := p.y - q.y

/-- Squared transverse distance of two spacepoints: the denominator of the
conformal mapping. -/
def drho2 (p q : spacepoint) : scalar := deltaX p q ^ 2 + deltaY p q ^ 2

/-- Conformal u coordinate of p relative to q. -/
def uCoord (p q : spacepoint) : scalar := deltaX p q / drho2 p q

/-- Conformal v coordinate of p relative to q. -/
def vCoord (p q : spacepoint) : scalar := deltaY p q / drho2 p q

/-- Denominator of the conformal line fit: the u separation of the bottom
and top spacepoints relative to the middle one. -/
def fitDenom (pB pM pT : spacepoint) : scalar :=
  uCoord pT pM - uCoord pB pM

/-- Slope of the conformal line fit. -/
def fitSlope (pB pM pT : spacepoint) : scalar :=
  (vCoord pT pM - vCoord pB pM) / fitDenom pB pM pT

/-- Intercept of the conformal line fit; it vanishes exactly on circles of
infinite radius (three collinear points). -/
def fitIntercept (pB pM pT : spacepoint) : scalar :=
  vCoord pB pM - fitSlope pB pM pT * uCoord pB pM

/-- Modelled from the spec: the closed-form circle fit of the triplet finder
through the conformal (u, v) coordinates, returning the squared curvature
and the impact-parameter estimate.  Every zero denominator (coincident
points, equal conformal u, infinite fit radius) is classified incompatible
by returning none, never an error. -/
def circleFit (pB pM pT : spacepoint) : Option (scalar × scalar) :=
  if drho2 pB pM = 0 ∨ drho2 pT pM = 0 then none
  else if fitDenom pB pM pT = 0 then none
  else if fitIntercept pB pM pT = 0 then none
  else some (4 * fitIntercept pB pM pT ^ 2 / (1 + fitSlope pB pM pT ^ 2),
    |fitSlope pB pM pT - fitIntercept pB pM pT * r2 pM|)

/-- Modelled from the spec: the vertex-z estimate derived from the fit, the
longitudinal extrapolation of the bottom-to-middle segment to the beam
axis. -/
def zVertexOf (pM pB : spacepoint) : scalar :=
  pM.z - r2 pM * (pM.z - pB.z) / (r2 pM - r2 pB)

/-- Modelled from the spec: a candidate triplet of one middle spacepoint,
storing the bottom and top links, the fit results and the quality weight. -/
structure triplet where
  spB : Nat
  spT : Nat
  curv2 : scalar
  impact : scalar
  weight : scalar
  zvert : scalar
deriving DecidableEq

/-- Modelled from the spec: triplet construction for a (bottom, top) pair of
one middle spacepoint: fit a circle, reject combinations whose curvature
implies a momentum below the configured minimum (squared curvature above the
configured maximum) or whose impact parameter exceeds the configured
maximum. -/
def mkTriplet (fc : seedfinder_config) (sps : List spacepoint)
    (m b t : Nat) : Option triplet :=
  match sps.get? b, sps.get? m, sps.get? t with
  | some pB, some pM, some pT =>
    match circleFit pB pM pT with
    | some fit =>
      if decide (fit.1 ≤ fc.maxCurvature2) && decide (fit.2 ≤ fc.impactMax)
      then some ⟨b, t, fit.1, fit.2, 0, zVertexOf pM pB⟩
      else none
    | none => none
  | _, _, _ => none

/-- Modelled from the spec: the accepted triplets of one middle spacepoint,
the filtered cross product of its bottom and top doublet candidates. -/
def tripletsOf (fc : seedfinder_config) (sps : List spacepoint) (m : Nat)
    (pM : spacepoint) : List triplet :=
  (tripletPairs (bottomIndices fc sps pM) (topIndices fc sps pM)).filterMap
    fun bt => mkTriplet fc sps m bt.1 bt.2

/-- Modelled from the spec: two triplets of the same middle spacepoint are
close when their curvature and impact parameter lie within the configured
tolerance window. -/
def tripletClose (sc : seedfilter_config) (a b : triplet) : Bool :=
  decide (|a.curv2 - b.curv2| ≤ sc.compatTolCurv) &&
  decide (|a.impact - b.impact| ≤ sc.compatTolImpact)

/-- Modelled from the spec: the local density bonus count of a triplet, the
number of other triplets of the same middle spacepoint within the tolerance
window, saturated at the configured cap. -/
def compatCount (sc : seedfilter_config) (t : triplet)
    (ts : List triplet) : Nat :=
  min (ts.countP fun u => tripletClose sc t u && !(decide (u = t))) sc.densityCap

/-- Modelled from the spec: the scalar quality weight of a triplet, a
configured linear combination of the negative impact parameter, the
region-of-interest bonus and the capped density count. -/
def triplet_weight (sc : seedfilter_config) (t : triplet)
    (ts : List triplet) : scalar :=
  -t.impact + sc.roiBonus + sc.compatWeight * (compatCount sc t ts : scalar)

/-- Modelled from the spec: the weight updating stage declared by
src/device/cuda/include/traccc/cuda/seeding/weight_updating.hpp (definition
not part of the excerpt): the weight of every triplet is updated from the
set of triplets sharing its middle spacepoint. -/
def weight_updating (sc : seedfilter_config) (ts : List triplet) :
    List triplet :=
  ts.map fun t => { t with weight := triplet_weight sc t ts }

/-- Modelled from the spec: the total selection order of the seed selector,
by descending weight with a deterministic tie-break: smaller impact
parameter, then smaller bottom link, then smaller top link. -/
def selBefore (a b : triplet) : Prop :=
  b.weight < a.weight ∨ (a.weight = b.weight ∧ (a.impact < b.impact ∨
    (a.impact = b.impact ∧ (a.spB < b.spB ∨ (a.spB = b.spB ∧ a.spT ≤ b.spT)))))

instance : DecidableRel selBefore := fun a b => by
  unfold selBefore; infer_instance

/-- Modelled from the spec: the seed selector of one middle spacepoint:
sort the weighted triplets, discard the ones below the configured weight
cut, retain at most the configured maximum and build the final alt_seed
records. -/
def selectSeeds (sc : seedfilter_config) (m : Nat) (ts : List triplet) :
    List alt_seed :=
  (((List.insertionSort selBefore ts).filter fun t =>
      decide (sc.weightCut ≤ t.weight)).take sc.maxSeedsPerSpM.toNat).map
    fun t => ⟨t.spB, m, t.spT, t.weight, t.zvert⟩

/-- Modelled from the spec: the full processing of one middle spacepoint:
doublet search, triplet assembly, weight updating and seed selection. -/
def seedsForMiddle (fc : seedfinder_config) (sc : seedfilter_config)
    (sps : List spacepoint) (m : Nat) : List alt_seed :=
  match sps.get? m with
  | none => []
  | some pM => selectSeeds sc m (weight_updating sc (tripletsOf fc sps m pM))

/-- Modelled from the spec: the reference (host) event processing: every
spacepoint is tried as the middle one and the per-middle seed lists are
concatenated. -/
def seed_finding_event (fc : seedfinder_config) (sc : seedfilter_config)
    (sps : List spacepoint) : List alt_seed :=
  (List.range sps.length).flatMap (seedsForMiddle fc sc sps)

/-- Modelled from the spec: event processing under an explicit scheduling
order of the middle spacepoints, the model of a thread-parallel or
kernel-parallel interleaving. -/
def seed_finding_event_ordered (fc : seedfinder_config)
    (sc : seedfilter_config) (sps : List spacepoint)
    (order : List Nat) : List alt_seed :=
  order.flatMap (seedsForMiddle fc sc sps)

/-- Scatter-write of a seed list into a buffer of option cells starting at a
given offset, one cell per seed: the model of the fill kernel of the
count-then-fill pattern. -/
def fillFrom : List (Option alt_seed) → Nat → List alt_seed →
    List (Option alt_seed)
  | buf, _, [] => buf
  | buf, off, x :: xs => fillFrom (buf.set off (some x)) (off + 1) xs

/-- Exclusive prefix sums of a list of counts, starting from a base offset:
phase 2 of the count-then-fill pattern. -/
def exclScan : Nat → List Nat → List Nat
  | _, [] => []
  | base, c :: cs => base :: exclScan (base + c) cs

/-- Folding all scatter-writes, one per (offset, seed list) pair, into the
output buffer: phase 3 of the count-then-fill pattern. -/
def fillMany (buf : List (Option alt_seed))
    (ws : List (Nat × List alt_seed)) : List (Option alt_seed) :=
  ws.foldl (fun b w => fillFrom b w.1 w.2) buf

/-- Per-middle seed lists of one event, the unit of work of the device
kernels. -/
def middleSeedLists (fc : seedfinder_config) (sc : seedfilter_config)
    (sps : List spacepoint) : List (List alt_seed) :=
  (List.range sps.length).map (seedsForMiddle fc sc sps)

/-- Modelled from the spec: the accelerator (device) event processing of the
seeding algorithm declared by
src/device/sycl/include/traccc/sycl/seeding/seeding_algorithm.hpp
(definition not part of the excerpt): per-middle seed counts, exclusive
prefix-sum offsets, a buffer sized exactly by the total count and
scatter-writes of every per-middle list at its offset. -/
def device_seed_finding_event (fc : seedfinder_config)
    (sc : seedfilter_config) (sps : List spacepoint) : List alt_seed :=
  let ls := middleSeedLists fc sc sps
  let counts := ls.map List.length
  (fillMany (List.replicate counts.sum none)
    ((exclScan 0 counts).zip ls)).filterMap id

/-- Configuration error raised at setup time. -/
inductive config_error
  | invalid_config
deriving DecidableEq

deriving instance DecidableEq for Except

/-- Number of bins of the configured 2D grid lattice. -/
def gridBinCount (fc : seedfinder_config) : Nat := fc.nPhiBins * fc.nZBins

/-- Modelled from the spec: the setup-time configuration validation: a grid
with zero usable bins or a non-positive maximum-seeds-per-middle-spacepoint
is a configuration error, detected before any event is processed. -/
def setupCheck (fc : seedfinder_config) (sc : seedfilter_config) :
    Except config_error Unit :=
  if gridBinCount fc = 0 ∨ sc.maxSeedsPerSpM ≤ 0
  then Except.error config_error.invalid_config
  else Except.ok ()

/-- Modelled from the spec: the host seeding algorithm over one event:
setup-time validation followed by the reference event processing. -/
def seeding_algorithm (fc : seedfinder_config) (sc : seedfilter_config)
    (sps : List spacepoint) : Except config_error (List alt_seed) :=
  (setupCheck fc sc).map fun _ => seed_finding_event fc sc sps

/-- Modelled from the spec: the accelerator seeding algorithm over one
event: the same setup-time validation followed by the count-then-fill event
processing. -/
def device_seeding_algorithm (fc : seedfinder_config)
    (sc : seedfilter_config) (sps : List spacepoint) :
    Except config_error (List alt_seed) :=
  (setupCheck fc sc).map fun _ => device_seed_finding_event fc sc sps

/-- Modelled from the spec: the multi-event driver: setup-time validation
once, then event processing for every submitted event. -/
def run_events (fc : seedfinder_config) (sc : seedfilter_config)
    (events : List (List spacepoint)) :
    Except config_error (List (List alt_seed)) :=
  (setupCheck fc sc).map fun _ => events.map (seed_finding_event fc sc)

/-- Whether a (bottom, top) candidate pair of middle index m is degenerate:
its circle fit is classified incompatible (or a link is out of range). -/
def tripletDegenerate (sps : List spacepoint) (m : Nat)
    (bt : Nat × Nat) : Bool :=
  match sps.get? bt.1, sps.get? m, sps.get? bt.2 with
  | some pB, some pM, some pT => decide (circleFit pB pM pT = none)
  | _, _, _ => true

/-- Three spacepoints are transversely collinear when one line of the x-y
plane passes through all three of them (coincident points are covered: any
line through the remaining distinct points works). -/
def CollinearXY (p q r : spacepoint) : Prop :=
  ∃ a b c : scalar, (a ≠ 0 ∨ b ≠ 0) ∧
    a * p.x + b * p.y = c ∧ a * q.x + b * q.y = c ∧ a * r.x + b * r.y = c

/-- One phase of the throughput harness, translated from
src/examples/run/common/throughput_mt_alt.ipp: every processed event adds
the size of its output collection to the atomic counter (the sum of atomic
fetch-adds is modelled as a fold over the completed tasks). -/
def processPhase (outSize : Nat → Nat) (events : List Nat)
    (counter : Nat) : Nat :=
  events.foldl (fun c e => c + outSize e) counter

/-- Translation of the counter reset between the warm-up and the
processed-events phase of throughput_mt_alt. -/
def resetCounter (_c : Nat) : Nat := 0

/-- Counter logic of throughput_mt_alt, translated from
src/examples/run/common/throughput_mt_alt.ipp: the warm-up phase
accumulates into the counter, the counter is reset to zero, the
processed-events phase accumulates again and the final value is the printed
"Reconstructed track parameters" total. -/
def throughput_mt_alt (outSize : Nat → Nat)
    (warmupEvents processedEvents : List Nat) : Nat :=
  processPhase outSize processedEvents
    (resetCounter (processPhase outSize warmupEvents 0))

/-- Validity of a configuration pair: a usable grid and a positive
maximum-seeds-per-middle-spacepoint. -/
def validConfig (fc : seedfinder_config) (sc : seedfilter_config) : Prop :=
  gridBinCount fc ≠ 0 ∧ 0 < sc.maxSeedsPerSpM

instance (fc : seedfinder_config) (sc : seedfilter_config) :
    Decidable (validConfig fc sc) := by
  unfold validConfig; infer_instance

/-- Concrete measurement used by the test fixtures. -/
def mW : measurement := ⟨0, 0⟩

/-- Concrete three-spacepoint event of the test fixtures: three spacepoints
of strictly increasing transverse radius near a common arc. -/
def spsW : List spacepoint :=
  [⟨1, 0, 1, mW⟩, ⟨2, 1, 2, mW⟩, ⟨3, 3, 3, mW⟩]

/-- Concrete degenerate event of the test fixtures: three transversely
collinear spacepoints. -/
def spsDegW : List spacepoint :=
  [⟨0, 0, 0, mW⟩, ⟨1, 1, 0, mW⟩, ⟨2, 2, 5, mW⟩]

/-- Concrete finder configuration of the test fixtures. -/
def fcW : seedfinder_config :=
  { nPhiBins := 1, nZBins := 1, zMin := -10, zBinSize := 20,
    deltaR2Min := 1, deltaR2Max := 100, cotThetaMax2 := 100,
    collisionRegionMin := -10, collisionRegionMax := 10,
    maxCurvature2 := 10, impactMax := 10 }

/-- Concrete filter configuration of the test fixtures. -/
def scW : seedfilter_config :=
  { weightCut := -1, maxSeedsPerSpM := 2, compatTolCurv := 1/10,
    compatTolImpact := 1/10, densityCap := 2, compatWeight := 3/2,
    roiBonus := 0 }

/-- The single seed the engine produces on the fixture event. -/
def seedW : alt_seed := ⟨0, 1, 2, -4/7, 3/4⟩

/-- Concrete invalid finder configuration: an azimuthal bin count of zero
leaves the grid without a single usable bin. -/
def fcBadW : seedfinder_config := { fcW with nPhiBins := 0 }

/-- Accumulating a phase of events equals the starting counter plus the sum
of the per-event output sizes. -/
theorem processPhase_eq (outSize : Nat → Nat) (events : List Nat) :
    ∀ n : Nat, processPhase outSize events n = n + (events.map outSize).sum := by
  induction events with
  | nil => intro n; simp [processPhase]
  | cons e es ih =>
    intro n
    have h := ih (n + outSize e)
    simp only [processPhase, List.foldl_cons] at h ⊢
    rw [h, List.map_cons, List.sum_cons]
    omega

/-- Claim C10: the "Reconstructed track parameters" value printed by the
multithreaded throughput harness equals the sum of the output-collection
sizes of exactly the processed-events phase: the counter is reset to zero
after the warm-up phase, so warm-up events contribute nothing, and since
the atomic fetch-adds commute, any completion order of the processed tasks
yields that same total. -/
theorem throughput_mt_alt_counts_processed_only (outSize : Nat → Nat)
    (warmupEvents processedEvents completionOrder : List Nat)
    (h : completionOrder.Perm processedEvents) :
    throughput_mt_alt outSize warmupEvents completionOrder =
      (processedEvents.map outSize).sum := by
  unfold throughput_mt_alt resetCounter
  rw [processPhase_eq]
  simpa using (h.map outSize).sum_eq

/-- Witness for claim C10 at a concrete harness run. -/
theorem throughput_mt_alt_counts_processed_only_witness :
    [2, 1].Perm [1, 2] ∧
    throughput_mt_alt (fun e => e + 3) [7, 7, 7] [2, 1] =
      ([1, 2].map (fun e => e + 3)).sum :=
  ⟨by decide,
    throughput_mt_alt_counts_processed_only (fun e => e + 3) [7, 7, 7]
      [1, 2] [2, 1] (by decide)⟩

/-- Claim C9: for every alt_seed and every spacepoint view in which its
three links are in bounds, get_spacepoints returns exactly the triple
(v[spB_link], v[spM_link], v[spT_link]) in bottom/middle/top order, and
get_measurements returns the meas fields of the same three elements in the
same order; both functions are pure, so neither call modifies the seed or
the collection. -/
theorem alt_seed_get_spacepoints_and_measurements (s : alt_seed)
    (v : List spacepoint) (hB : s.spB_link < v.length)
    (hM : s.spM_link < v.length) (hT : s.spT_link < v.length) :
    s.get_spacepoints v =
      some (v.get ⟨s.spB_link, hB⟩, v.get ⟨s.spM_link, hM⟩,
        v.get ⟨s.spT_link, hT⟩) ∧
    s.get_measurements v =
      some ((v.get ⟨s.spB_link, hB⟩).meas, (v.get ⟨s.spM_link, hM⟩).meas,
        (v.get ⟨s.spT_link, hT⟩).meas) := by
  unfold alt_seed.get_spacepoints alt_seed.get_measurements spAt
  rw [List.get?_eq_get hB, List.get?_eq_get hM, List.get?_eq_get hT]
  exact ⟨rfl, rfl⟩

/-- Witness for claim C9 at a concrete seed and collection. -/
theorem alt_seed_get_spacepoints_and_measurements_witness :
    ((0 : Nat) < spsW.length ∧ (1 : Nat) < spsW.length ∧
      (2 : Nat) < spsW.length) ∧
    ((⟨0, 1, 2, 1, 0⟩ : alt_seed).get_spacepoints spsW =
      some (⟨1, 0, 1, mW⟩, ⟨2, 1, 2, mW⟩, ⟨3, 3, 3, mW⟩) ∧
    (⟨0, 1, 2, 1, 0⟩ : alt_seed).get_measurements spsW =
      some (mW, mW, mW)) :=
  ⟨⟨by decide, by decide, by decide⟩,
    alt_seed_get_spacepoints_and_measurements ⟨0, 1, 2, 1, 0⟩ spsW
      (by decide) (by decide) (by decide)⟩

/-- Claim C5: on the empty spacepoint collection and any valid
configuration, the seeding algorithm returns an empty seed collection and
does not signal an error. -/
theorem seeding_algorithm_empty_input (fc : seedfinder_config)
    (sc : seedfilter_config) (h : validConfig fc sc) :
    seeding_algorithm fc sc [] = Except.ok [] := by
  obtain ⟨h1, h2⟩ := h
  unfold seeding_algorithm setupCheck
  rw [if_neg]
  · rfl
  · push_neg
    exact ⟨h1, by omega⟩

/-- Witness for claim C5 at the concrete fixture configuration. -/
theorem seeding_algorithm_empty_input_witness :
    validConfig fcW scW ∧ seeding_algorithm fcW scW [] = Except.ok [] :=
  ⟨by decide, seeding_algorithm_empty_input fcW scW (by decide)⟩

/-- Claim C8: a configuration with zero usable grid bins or a non-positive
maximum-seeds-per-middle-spacepoint makes setup fail with a configuration
error before any event is processed: for every submitted event list the
multi-event driver returns the setup error, so no event-processing step is
ever reached. -/
theorem invalid_config_fails_at_setup (fc : seedfinder_config)
    (sc : seedfilter_config) (events : List (List spacepoint))
    (h : gridBinCount fc = 0 ∨ sc.maxSeedsPerSpM ≤ 0) :
    run_events fc sc events = Except.error config_error.invalid_config := by
  unfold run_events setupCheck
  rw [if_pos h]
  rfl

/-- Witness for claim C8 at a concrete zero-bin configuration. -/
theorem invalid_config_fails_at_setup_witness :
    (gridBinCount fcBadW = 0 ∨ scW.maxSeedsPerSpM ≤ 0) ∧
    run_events fcBadW scW [spsW] =
      Except.error config_error.invalid_config :=
  ⟨by decide, invalid_config_fails_at_setup fcBadW scW [spsW] (by decide)⟩

/-- Claim C6: two runs of the engine on the same spacepoint collection and
configuration produce equal seed sets.  A run is modelled as an execution
whose middle-spacepoint schedule is some permutation of the canonical
schedule (the model of thread or kernel interleaving); any such run yields
the reference output up to permutation, hence any two runs yield
permutations of each other: equal seed sets without a guaranteed sequence
order. -/
theorem seed_finding_idempotent_as_set (fc : seedfinder_config)
    (sc : seedfilter_config) (sps : List spacepoint)
    (ord1 ord2 : List Nat)
    (h1 : ord1.Perm (List.range sps.length))
    (h2 : ord2.Perm (List.range sps.length)) :
    (seed_finding_event_ordered fc sc sps ord1).Perm
      (seed_finding_event_ordered fc sc sps ord2) ∧
    (seed_finding_event_ordered fc sc sps ord1).Perm
      (seed_finding_event fc sc sps) := by
  have k1 := List.Perm.flatMap_right (seedsForMiddle fc sc sps) h1
  have k2 := List.Perm.flatMap_right (seedsForMiddle fc sc sps) h2
  exact ⟨k1.trans k2.symm, k1⟩

/-- Witness for claim C6 at two concrete schedules of the fixture event. -/
theorem seed_finding_idempotent_as_set_witness :
    ([2, 0, 1].Perm (List.range spsW.length) ∧
      [1, 2, 0].Perm (List.range spsW.length)) ∧
    ((seed_finding_event_ordered fcW scW spsW [2, 0, 1]).Perm
      (seed_finding_event_ordered fcW scW spsW [1, 2, 0]) ∧
    (seed_finding_event_ordered fcW scW spsW [2, 0, 1]).Perm
      (seed_finding_event fcW scW spsW)) :=
  ⟨⟨by decide, by decide⟩,
    seed_finding_idempotent_as_set fcW scW spsW [2, 0, 1] [1, 2, 0]
      (by decide) (by decide)⟩

/-- Claim C4: the weight update of the triplets of one middle spacepoint is
a pure function of the set of those triplets: for any two orderings of the
same candidate triplets, every triplet receives the same weight (exactly,
in the rational model), and the updated collections are permutations of
each other. -/
theorem weight_updating_order_independent (sc : seedfilter_config)
    (ts1 ts2 : List triplet) (h : ts1.Perm ts2) :
    (∀ t : triplet, triplet_weight sc t ts1 = triplet_weight sc t ts2) ∧
    (weight_updating sc ts1).Perm (weight_updating sc ts2) := by
  have hw : ∀ t : triplet, triplet_weight sc t ts1 = triplet_weight sc t ts2 := by
    intro t
    unfold triplet_weight compatCount
    rw [h.countP_eq]
  refine ⟨hw, ?_⟩
  unfold weight_updating
  have hmap : (ts2.map fun t => { t with weight := triplet_weight sc t ts2 }) =
      ts2.map fun t => { t with weight := triplet_weight sc t ts1 } := by
    apply List.map_congr_left
    intro t _
    rw [hw t]
  rw [hmap]
  exact h.map _

/-- Witness for claim C4 at two concrete orderings of two triplets. -/
theorem weight_updating_order_independent_witness :
    [(⟨0, 2, 1, 1, 0, 0⟩ : triplet), ⟨0, 3, 1, 2, 0, 0⟩].Perm
      [⟨0, 3, 1, 2, 0, 0⟩, ⟨0, 2, 1, 1, 0, 0⟩] ∧
    ((∀ t : triplet,
        triplet_weight scW t [⟨0, 2, 1, 1, 0, 0⟩, ⟨0, 3, 1, 2, 0, 0⟩] =
        triplet_weight scW t [⟨0, 3, 1, 2, 0, 0⟩, ⟨0, 2, 1, 1, 0, 0⟩]) ∧
      (weight_updating scW [⟨0, 2, 1, 1, 0, 0⟩, ⟨0, 3, 1, 2, 0, 0⟩]).Perm
        (weight_updating scW [⟨0, 3, 1, 2, 0, 0⟩, ⟨0, 2, 1, 1, 0, 0⟩])) :=
  ⟨by with_unfolding_all decide,
    weight_updating_order_independent scW _ _ (by with_unfolding_all decide)⟩

/-- Every seed built by the selector of one middle spacepoint comes from a
triplet of the selector input, with the middle link set to that middle
spacepoint. -/
theorem mem_selectSeeds (sc : seedfilter_config) (m : Nat)
    (ts : List triplet) (s : alt_seed) (hs : s ∈ selectSeeds sc m ts) :
    ∃ t ∈ ts, s = ⟨t.spB, m, t.spT, t.weight, t.zvert⟩ := by
  unfold selectSeeds at hs
  rw [List.mem_map] at hs
  obtain ⟨t, ht, rfl⟩ := hs
  refine ⟨t, ?_, rfl⟩
  have h1 := List.mem_of_mem_take ht
  have h2 := (List.mem_filter.mp h1).1
  exact ((List.perm_insertionSort selBefore ts).mem_iff).mp h2

/-- Every seed of one middle spacepoint carries that middle link. -/
theorem seedsForMiddle_spM (fc : seedfinder_config) (sc : seedfilter_config)
    (sps : List spacepoint) (m : Nat) :
    ∀ s ∈ seedsForMiddle fc sc sps m, s.spM_link = m := by
  intro s hs
  unfold seedsForMiddle at hs
  split at hs
  · cases hs
  · obtain ⟨t, -, rfl⟩ := mem_selectSeeds _ _ _ _ hs
    rfl

/-- One middle spacepoint never yields more seeds than the configured
maximum. -/
theorem length_seedsForMiddle_le (fc : seedfinder_config)
    (sc : seedfilter_config) (sps : List spacepoint) (m : Nat) :
    (seedsForMiddle fc sc sps m).length ≤ sc.maxSeedsPerSpM.toNat := by
  unfold seedsForMiddle
  split
  · simp
  · unfold selectSeeds
    rw [List.length_map]
    exact List.length_take_le _ _

/-- A seed of a concatenated per-middle run carries one of the scheduled
middle links. -/
theorem mem_flatMap_middle (g : Nat → List alt_seed)
    (hg : ∀ j, ∀ s ∈ g j, s.spM_link = j) (ms : List Nat) (s : alt_seed)
    (hs : s ∈ ms.flatMap g) : s.spM_link ∈ ms := by
  rw [List.mem_flatMap] at hs
  obtain ⟨j, hj, hsj⟩ := hs
  rw [hg j s hsj]
  exact hj

/-- A middle spacepoint outside the schedule contributes no seed. -/
theorem filter_middle_flatMap_nil (g : Nat → List alt_seed) (m : Nat)
    (hg : ∀ j, ∀ s ∈ g j, s.spM_link = j) (ms : List Nat) (hm : m ∉ ms) :
    (ms.flatMap g).filter (fun s => decide (s.spM_link = m)) = [] := by
  rw [List.filter_eq_nil_iff]
  intro s hs
  simp only [decide_eq_true_eq]
  intro hc
  exact hm (hc ▸ mem_flatMap_middle g hg ms s hs)

/-- Counting bound over a duplicate-free schedule: when every per-middle
list is bounded by k and tagged with its own middle link, the concatenated
output holds at most k seeds of any one middle link. -/
theorem count_middle_le (g : Nat → List alt_seed) (m k : Nat)
    (hg : ∀ j, ∀ s ∈ g j, s.spM_link = j) (hk : ∀ j, (g j).length ≤ k) :
    ∀ ms : List Nat, ms.Nodup →
      ((ms.flatMap g).filter (fun s => decide (s.spM_link = m))).length ≤ k := by
  intro ms
  induction ms with
  | nil => intro _; simp
  | cons a tl ih =>
    intro hnd
    rw [List.flatMap_cons, List.filter_append, List.length_append]
    rcases List.nodup_cons.mp hnd with ⟨ha, htl⟩
    by_cases hm : a = m
    · subst hm
      have h2 : ((tl.flatMap g).filter
          (fun s => decide (s.spM_link = a))).length = 0 := by
        rw [filter_middle_flatMap_nil g a hg tl ha]
        rfl
      have h1 : ((g a).filter (fun s => decide (s.spM_link = a))).length ≤ k :=
        le_trans (List.length_filter_le _ _) (hk a)
      omega
    · have h1 : (g a).filter (fun s => decide (s.spM_link = m)) = [] := by
        rw [List.filter_eq_nil_iff]
        intro s hs
        simp only [decide_eq_true_eq]
        rw [hg a s hs]
        exact hm
      rw [h1]
      simpa using ih htl

/-- A successful run of the seeding algorithm returns exactly the reference
event output. -/
theorem seeding_algorithm_ok (fc : seedfinder_config) (sc : seedfilter_config)
    (sps : List spacepoint) (out : List alt_seed)
    (hout : seeding_algorithm fc sc sps = Except.ok out) :
    out = seed_finding_event fc sc sps := by
  unfold seeding_algorithm at hout
  cases hsu : setupCheck fc sc with
  | error e =>
    rw [hsu] at hout
    simp [Except.map] at hout
  | ok u =>
    rw [hsu] at hout
    simp only [Except.map, Except.ok.injEq] at hout
    exact hout.symm

/-- Claim C3: for every input, configuration with a positive maximum, and
middle spacepoint index m, the number of output seeds whose middle link
equals m never exceeds the configured maximum seeds retained per middle
spacepoint. -/
theorem seeds_per_middle_bounded (fc : seedfinder_config)
    (sc : seedfilter_config) (sps : List spacepoint) (m : Nat)
    (out : List alt_seed) (hpos : 0 < sc.maxSeedsPerSpM)
    (hout : seeding_algorithm fc sc sps = Except.ok out) :
    ((out.filter fun s => decide (s.spM_link = m)).length : Int) ≤
      sc.maxSeedsPerSpM := by
  rw [seeding_algorithm_ok fc sc sps out hout]
  unfold seed_finding_event
  have hb := count_middle_le (seedsForMiddle fc sc sps) m
    sc.maxSeedsPerSpM.toNat (seedsForMiddle_spM fc sc sps)
    (length_seedsForMiddle_le fc sc sps) (List.range sps.length)
    (List.nodup_range _)
  calc ((((List.range sps.length).flatMap (seedsForMiddle fc sc sps)).filter
        (fun s => decide (s.spM_link = m))).length : Int)
      ≤ (sc.maxSeedsPerSpM.toNat : Int) := by exact_mod_cast hb
    _ = sc.maxSeedsPerSpM := Int.toNat_of_nonneg (le_of_lt hpos)

/-- Witness for claim C3 at the fixture event, which produces one seed with
middle link 1 against a configured maximum of 2. -/
theorem seeds_per_middle_bounded_witness :
    (0 < scW.maxSeedsPerSpM ∧
      seeding_algorithm fcW scW spsW = Except.ok [seedW]) ∧
    (([seedW].filter fun s => decide (s.spM_link = 1)).length : Int) ≤
      scW.maxSeedsPerSpM :=
  ⟨⟨by decide, by with_unfolding_all decide⟩,
    seeds_per_middle_bounded fcW scW spsW 1 [seedW] (by decide)
      (by with_unfolding_all decide)⟩

/-- A pair of the bottom-top cross product has its components in the two
candidate lists. -/
theorem mem_tripletPairs (bs ts : List Nat) (bt : Nat × Nat)
    (h : bt ∈ tripletPairs bs ts) : bt.1 ∈ bs ∧ bt.2 ∈ ts := by
  unfold tripletPairs at h
  rw [List.mem_flatMap] at h
  obtain ⟨b, hb, h⟩ := h
  rw [List.mem_map] at h
  obtain ⟨t, ht, heq⟩ := h
  subst heq
  exact ⟨hb, ht⟩

/-- A successfully built triplet records exactly the bottom and top links it
was built from. -/
theorem mkTriplet_some_links (fc : seedfinder_config) (sps : List spacepoint)
    (m b t : Nat) (u : triplet) (h : mkTriplet fc sps m b t = some u) :
    u.spB = b ∧ u.spT = t := by
  unfold mkTriplet at h
  split at h
  · split at h
    · split at h
      · injection h with h
        rw [← h]
        exact ⟨rfl, rfl⟩
      · cases h
    · cases h
  · cases h

/-- A bottom candidate index resolves to a spacepoint passing the bottom
doublet compatibility against the middle spacepoint. -/
theorem mem_bottomIndices (fc : seedfinder_config) (sps : List spacepoint)
    (pM : spacepoint) (b : Nat) (h : b ∈ bottomIndices fc sps pM) :
    ∃ pB, sps.get? b = some pB ∧ doubletCompat fc pM pB true = true := by
  unfold bottomIndices at h
  rw [List.mem_filter] at h
  obtain ⟨-, h⟩ := h
  cases hb : sps.get? b with
  | none => rw [hb] at h; cases h
  | some pB => rw [hb] at h; exact ⟨pB, rfl, h⟩

/-- A top candidate index resolves to a spacepoint passing the top doublet
compatibility against the middle spacepoint. -/
theorem mem_topIndices (fc : seedfinder_config) (sps : List spacepoint)
    (pM : spacepoint) (t : Nat) (h : t ∈ topIndices fc sps pM) :
    ∃ pT, sps.get? t = some pT ∧ doubletCompat fc pM pT false = true := by
  unfold topIndices at h
  rw [List.mem_filter] at h
  obtain ⟨-, h⟩ := h
  cases ht : sps.get? t with
  | none => rw [ht] at h; cases h
  | some pT => rw [ht] at h; exact ⟨pT, rfl, h⟩

/-- A compatible bottom spacepoint has a strictly smaller squared transverse
radius than the middle spacepoint. -/
theorem doubletCompat_bottom_radius (fc : seedfinder_config)
    (pM pC : spacepoint) (h : doubletCompat fc pM pC true = true) :
    r2 pC < r2 pM := by
  unfold doubletCompat at h
  simp only [if_true, Bool.and_eq_true, decide_eq_true_eq] at h
  linarith [h.1.1.1.1.1]

/-- A compatible top spacepoint has a strictly larger squared transverse
radius than the middle spacepoint. -/
theorem doubletCompat_top_radius (fc : seedfinder_config)
    (pM pC : spacepoint) (h : doubletCompat fc pM pC false = true) :
    r2 pM < r2 pC := by
  unfold doubletCompat at h
  simp only [Bool.false_eq_true, if_false, Bool.and_eq_true,
    decide_eq_true_eq] at h
  linarith [h.1.1.1.1.1]

/-- Weight updating preserves the links of every triplet. -/
theorem mem_weight_updating (sc : seedfilter_config) (ts : List triplet)
    (t : triplet) (ht : t ∈ weight_updating sc ts) :
    ∃ u ∈ ts, t.spB = u.spB ∧ t.spT = u.spT := by
  unfold weight_updating at ht
  rw [List.mem_map] at ht
  obtain ⟨u, hu, heq⟩ := ht
  exact ⟨u, hu, by rw [← heq], by rw [← heq]⟩

/-- Every accepted triplet of a middle spacepoint has in-range bottom and
top links passing the respective doublet compatibility. -/
theorem mem_tripletsOf (fc : seedfinder_config) (sps : List spacepoint)
    (m : Nat) (pM : spacepoint) (u : triplet) (hu : u ∈ tripletsOf fc sps m pM) :
    (∃ pB, sps.get? u.spB = some pB ∧ doubletCompat fc pM pB true = true) ∧
    (∃ pT, sps.get? u.spT = some pT ∧ doubletCompat fc pM pT false = true) := by
  unfold tripletsOf at hu
  rw [List.mem_filterMap] at hu
  obtain ⟨bt, hbt, hmk⟩ := hu
  obtain ⟨hbb, hbtop⟩ := mem_tripletPairs _ _ _ hbt
  obtain ⟨h1, h2⟩ := mkTriplet_some_links fc sps m bt.1 bt.2 u hmk
  rw [h1, h2]
  exact ⟨mem_bottomIndices _ _ _ _ hbb, mem_topIndices _ _ _ _ hbtop⟩

/-- Structural decomposition of a seed of one middle spacepoint: the three
links resolve in the collection and the squared radii increase strictly
from bottom through middle to top. -/
theorem mem_seedsForMiddle_structure (fc : seedfinder_config)
    (sc : seedfilter_config) (sps : List spacepoint) (m : Nat) (s : alt_seed)
    (hs : s ∈ seedsForMiddle fc sc sps m) :
    ∃ pM pB pT, sps.get? m = some pM ∧
      sps.get? s.spB_link = some pB ∧ sps.get? s.spT_link = some pT ∧
      s.spM_link = m ∧ r2 pB < r2 pM ∧ r2 pM < r2 pT := by
  unfold seedsForMiddle at hs
  split at hs
  · cases hs
  · rename_i pM heq
    obtain ⟨t, htw, rfl⟩ := mem_selectSeeds _ _ _ _ hs
    obtain ⟨u, hu, hB, hT⟩ := mem_weight_updating _ _ _ htw
    obtain ⟨⟨pB, hgb, hcb⟩, ⟨pT, hgt, hct⟩⟩ := mem_tripletsOf _ _ _ _ _ hu
    refine ⟨pM, pB, pT, heq, ?_, ?_, rfl, ?_, ?_⟩
    · show sps.get? t.spB = some pB
      rw [hB]
      exact hgb
    · show sps.get? t.spT = some pT
      rw [hT]
      exact hgt
    · exact doubletCompat_bottom_radius fc pM pB hcb
    · exact doubletCompat_top_radius fc pM pT hct

/-- Claim C2: every seed produced by the seeding algorithm from a
collection of N spacepoints has its three links pairwise distinct and each
within [0, N). -/
theorem seed_links_distinct_and_in_bounds (fc : seedfinder_config)
    (sc : seedfilter_config) (sps : List spacepoint) (out : List alt_seed)
    (s : alt_seed) (hout : seeding_algorithm fc sc sps = Except.ok out)
    (hs : s ∈ out) :
    (s.spB_link < sps.length ∧ s.spM_link < sps.length ∧
      s.spT_link < sps.length) ∧
    (s.spB_link ≠ s.spM_link ∧ s.spB_link ≠ s.spT_link ∧
      s.spM_link ≠ s.spT_link) := by
  rw [seeding_algorithm_ok fc sc sps out hout] at hs
  unfold seed_finding_event at hs
  rw [List.mem_flatMap] at hs
  obtain ⟨m, -, hsm⟩ := hs
  obtain ⟨pM, pB, pT, hm, hb, ht, hsmm, h1, h2⟩ :=
    mem_seedsForMiddle_structure fc sc sps m s hsm
  have hBlt : s.spB_link < sps.length := (List.get?_eq_some.mp hb).1
  have hTlt : s.spT_link < sps.length := (List.get?_eq_some.mp ht).1
  have hMlt : s.spM_link < sps.length := by
    rw [hsmm]
    exact (List.get?_eq_some.mp hm).1
  refine ⟨⟨hBlt, hMlt, hTlt⟩, ?_, ?_, ?_⟩
  · intro hEq
    have h3 : s.spB_link = m := hEq.trans hsmm
    rw [h3, hm] at hb
    injection hb with hb
    rw [← hb] at h1
    exact lt_irrefl _ h1
  · intro hEq
    rw [hEq, ht] at hb
    injection hb with hb
    rw [hb] at h2
    exact lt_irrefl _ (h1.trans h2)
  · intro hEq
    have h3 : s.spT_link = m := by rw [← hEq]; exact hsmm
    rw [h3, hm] at ht
    injection ht with ht
    rw [← ht] at h2
    exact lt_irrefl _ h2


/-- Witness for claim C2 at the fixture event and its produced seed. -/
theorem seed_links_distinct_and_in_bounds_witness :
    (seeding_algorithm fcW scW spsW = Except.ok [seedW] ∧ seedW ∈ [seedW]) ∧
    ((seedW.spB_link < spsW.length ∧ seedW.spM_link < spsW.length ∧
      seedW.spT_link < spsW.length) ∧
    (seedW.spB_link ≠ seedW.spM_link ∧ seedW.spB_link ≠ seedW.spT_link ∧
      seedW.spM_link ≠ seedW.spT_link)) :=
  ⟨⟨by with_unfolding_all decide, by with_unfolding_all decide⟩,
    seed_links_distinct_and_in_bounds fcW scW spsW [seedW] seedW
      (by with_unfolding_all decide) (by with_unfolding_all decide)⟩

/-- Filtering out entries a partial construction rejects anyway does not
change its filterMap output. -/
theorem filterMap_filter_none {α β : Type} (p : α → Bool) (f : α → Option β)
    (hnone : ∀ a, p a = true → f a = none) :
    ∀ l : List α, (l.filter fun a => !p a).filterMap f = l.filterMap f := by
  intro l
  induction l with
  | nil => rfl
  | cons a tl ih =>
    rw [List.filter_cons]
    by_cases hp : p a = true
    · simp only [hp, Bool.not_true, Bool.false_eq_true, if_false]
      rw [ih, List.filterMap_cons, hnone a hp]
    · have hp2 : p a = false := by
        cases hq : p a
        · rfl
        · exact absurd hq hp
      simp only [hp2, Bool.not_false, if_true]
      rw [List.filterMap_cons, List.filterMap_cons, ih]

/-- A degenerate candidate pair never builds a triplet. -/
theorem tripletDegenerate_mkTriplet_none (fc : seedfinder_config)
    (sps : List spacepoint) (m : Nat) (bt : Nat × Nat)
    (h : tripletDegenerate sps m bt = true) :
    mkTriplet fc sps m bt.1 bt.2 = none := by
  unfold tripletDegenerate at h
  unfold mkTriplet
  cases hb : sps.get? bt.1 with
  | none => rfl
  | some pB =>
    cases hm : sps.get? m with
    | none => rfl
    | some pM =>
      cases ht : sps.get? bt.2 with
      | none => rfl
      | some pT =>
        rw [hb, hm, ht] at h
        simp only [decide_eq_true_eq] at h
        simp only [h]

/-- Transversely collinear (or coincident) spacepoints are classified
incompatible by the circle fit: every degenerate denominator is caught and
the result is none, never a fault. -/
theorem collinear_circleFit_none (pB pM pT : spacepoint)
    (h : CollinearXY pB pM pT) : circleFit pB pM pT = none := by
  obtain ⟨a, b, c, hab, hB, hM, hT⟩ := h
  unfold circleFit
  by_cases h1 : drho2 pB pM = 0 ∨ drho2 pT pM = 0
  · rw [if_pos h1]
  · rw [if_neg h1]
    have hBrel : a * deltaX pB pM + b * deltaY pB pM = 0 := by
      unfold deltaX deltaY
      linear_combination hB - hM
    have hTrel : a * deltaX pT pM + b * deltaY pT pM = 0 := by
      unfold deltaX deltaY
      linear_combination hT - hM
    by_cases hb0 : b = 0
    · subst hb0
      have ha : a ≠ 0 := by
        rcases hab with h2 | h2
        · exact h2
        · exact absurd rfl h2
      have hxB : deltaX pB pM = 0 := by
        have h2 : a * deltaX pB pM = 0 := by linarith [hBrel]
        exact (mul_eq_zero.mp h2).resolve_left ha
      have hxT : deltaX pT pM = 0 := by
        have h2 : a * deltaX pT pM = 0 := by linarith [hTrel]
        exact (mul_eq_zero.mp h2).resolve_left ha
      have hden : fitDenom pB pM pT = 0 := by
        unfold fitDenom uCoord
        rw [hxB, hxT]
        simp
      rw [if_pos hden]
    · by_cases hd : fitDenom pB pM pT = 0
      · rw [if_pos hd]
      · rw [if_neg hd]
        have hvB : vCoord pB pM = -(a / b) * uCoord pB pM := by
          unfold vCoord uCoord
          have hdyB : deltaY pB pM = -(a / b) * deltaX pB pM := by
            field_simp
            linear_combination hBrel
          rw [hdyB]
          ring
        have hvT : vCoord pT pM = -(a / b) * uCoord pT pM := by
          unfold vCoord uCoord
          have hdyT : deltaY pT pM = -(a / b) * deltaX pT pM := by
            field_simp
            linear_combination hTrel
          rw [hdyT]
          ring
        have hd2 : uCoord pT pM - uCoord pB pM ≠ 0 := by
          unfold fitDenom at hd
          exact hd
        have hint : fitIntercept pB pM pT = 0 := by
          unfold fitIntercept fitSlope fitDenom
          rw [hvB, hvT]
          field_simp
          ring
        rw [if_pos hint]

/-- Claim C7: in the triplet finder, degenerate geometry (three transversely
collinear or coincident points, which make a circle-fit denominator vanish)
never causes a fault or an error result: the fit classifies the combination
incompatible (none), and removing the degenerate (bottom, top) combinations
from a candidate list leaves the triplet output unchanged, so they are
skipped while the remaining combinations are processed. -/
theorem degenerate_fit_skipped :
    (∀ pB pM pT : spacepoint, CollinearXY pB pM pT →
      circleFit pB pM pT = none) ∧
    (∀ (fc : seedfinder_config) (sps : List spacepoint) (m : Nat)
        (pairs : List (Nat × Nat)),
      (pairs.filter fun bt => !tripletDegenerate sps m bt).filterMap
          (fun bt => mkTriplet fc sps m bt.1 bt.2) =
        pairs.filterMap fun bt => mkTriplet fc sps m bt.1 bt.2) := by
  constructor
  · exact collinear_circleFit_none
  · intro fc sps m pairs
    exact filterMap_filter_none _ _
      (fun bt hbt => tripletDegenerate_mkTriplet_none fc sps m bt hbt) pairs

/-- Witness for claim C7 at three concrete collinear spacepoints and a
concrete candidate pair list. -/
theorem degenerate_fit_skipped_witness :
    circleFit ⟨0, 0, 0, mW⟩ ⟨1, 1, 0, mW⟩ ⟨2, 2, 5, mW⟩ = none ∧
    (([((0 : Nat), (2 : Nat))].filter fun bt =>
        !tripletDegenerate spsDegW 1 bt).filterMap
        (fun bt => mkTriplet fcW spsDegW 1 bt.1 bt.2) =
      [((0 : Nat), (2 : Nat))].filterMap fun bt =>
        mkTriplet fcW spsDegW 1 bt.1 bt.2) :=
  ⟨degenerate_fit_skipped.1 ⟨0, 0, 0, mW⟩ ⟨1, 1, 0, mW⟩ ⟨2, 2, 5, mW⟩
      ⟨1, -1, 0, Or.inl one_ne_zero, by norm_num, by norm_num, by norm_num⟩,
    degenerate_fit_skipped.2 fcW spsDegW 1 [(0, 2)]⟩

/-- Setting the cell right after a prefix rewrites exactly that cell. -/
theorem set_append_cons (v : Option alt_seed) :
    ∀ (pre : List (Option alt_seed)) (y : Option alt_seed)
      (rest : List (Option alt_seed)),
      (pre ++ y :: rest).set pre.length v = pre ++ v :: rest := by
  intro pre
  induction pre with
  | nil => intro y rest; rfl
  | cons a tl ih =>
    intro y rest
    show a :: (tl ++ y :: rest).set tl.length v = a :: (tl ++ v :: rest)
    rw [ih]

/-- Scatter-writing a seed list over a buffer region of matching length
rewrites exactly that region. -/
theorem fillFrom_append :
    ∀ (xs : List alt_seed) (pre mid suf : List (Option alt_seed)),
      mid.length = xs.length →
      fillFrom (pre ++ mid ++ suf) pre.length xs =
        pre ++ xs.map some ++ suf := by
  intro xs
  induction xs with
  | nil =>
    intro pre mid suf h
    have hm : mid = [] := List.eq_nil_of_length_eq_zero h
    subst hm
    rfl
  | cons x xs ih =>
    intro pre mid suf h
    cases mid with
    | nil => simp at h
    | cons y mid =>
      have hlen : mid.length = xs.length := by simpa using h
      rw [fillFrom, List.append_assoc, List.cons_append, set_append_cons]
      have hpre : pre ++ some x :: (mid ++ suf) =
          (pre ++ [some x]) ++ mid ++ suf := by simp
      rw [hpre]
      have hlen2 : pre.length + 1 = (pre ++ [some x]).length := by simp
      rw [hlen2, ih (pre ++ [some x]) mid suf hlen]
      simp

/-- Scatter-writing every per-middle seed list at its exclusive prefix-sum
offset into an exactly sized buffer reproduces the concatenation of the
lists. -/
theorem fillMany_zip_exclScan :
    ∀ (ls : List (List alt_seed)) (pre mid : List (Option alt_seed)),
      mid.length = (ls.map List.length).sum →
      fillMany (pre ++ mid)
          ((exclScan pre.length (ls.map List.length)).zip ls) =
        pre ++ ls.flatten.map some := by
  intro ls
  induction ls with
  | nil =>
    intro pre mid h
    have hm : mid = [] := List.eq_nil_of_length_eq_zero (by simpa using h)
    subst hm
    simp [fillMany, exclScan]
  | cons xs rest ih =>
    intro pre mid h
    have hxs : xs.length ≤ mid.length := by
      rw [h, List.map_cons, List.sum_cons]
      omega
    have hlen1 : (mid.take xs.length).length = xs.length := by
      rw [List.length_take]
      omega
    have hlen2 : (mid.drop xs.length).length = (rest.map List.length).sum := by
      rw [List.length_drop, h, List.map_cons, List.sum_cons]
      omega
    unfold fillMany
    rw [List.map_cons, exclScan, List.zip_cons_cons, List.foldl_cons]
    dsimp only
    rw [← List.take_append_drop xs.length mid, ← List.append_assoc]
    rw [fillFrom_append xs pre (mid.take xs.length) (mid.drop xs.length) hlen1]
    have key := ih (pre ++ xs.map some) (mid.drop xs.length) hlen2
    unfold fillMany at key
    have hoff : (pre ++ xs.map some).length = pre.length + xs.length := by
      simp
    rw [hoff] at key
    rw [key]
    simp [List.flatten_cons]

/-- The count-then-fill device event processing returns exactly the host
reference output: the refinement of the accelerator staging against the
host backend. -/
theorem device_eq_host (fc : seedfinder_config) (sc : seedfilter_config)
    (sps : List spacepoint) :
    device_seed_finding_event fc sc sps = seed_finding_event fc sc sps := by
  have key := fillMany_zip_exclScan (middleSeedLists fc sc sps) []
    (List.replicate ((middleSeedLists fc sc sps).map List.length).sum none)
    (by simp)
  simp only [List.nil_append, List.length_nil] at key
  unfold device_seed_finding_event
  dsimp only
  rw [key, List.filterMap_map]
  have hid : (id ∘ some : alt_seed → Option alt_seed) = some := rfl
  rw [hid, List.filterMap_some]
  unfold middleSeedLists seed_finding_event
  exact (List.flatMap_def _ _).symm

/-- Claim C1: on every spacepoint collection and configuration, the host
backend and the accelerator (count-then-fill) backend produce the same
sequence of (bottom, middle, top) index triples, with per-seed weights
agreeing within the 1e-5 relative tolerance; in the exact rational model
the two outputs are equal, which implies the tolerance bound, and the full
algorithms (setup included) return equal results. -/
theorem backend_equivalence (fc : seedfinder_config) (sc : seedfilter_config)
    (sps : List spacepoint) :
    device_seeding_algorithm fc sc sps = seeding_algorithm fc sc sps ∧
    List.Forall₂ (fun d h =>
      (d.spB_link, d.spM_link, d.spT_link) =
        (h.spB_link, h.spM_link, h.spT_link) ∧
      |d.weight - h.weight| ≤ |h.weight| / 100000)
      (device_seed_finding_event fc sc sps)
      (seed_finding_event fc sc sps) := by
  have he := device_eq_host fc sc sps
  constructor
  · unfold device_seeding_algorithm seeding_algorithm
    rw [he]
  · rw [he, List.forall₂_same]
    intro s _
    refine ⟨rfl, ?_⟩
    rw [sub_self, abs_zero]
    positivity

end traccc
